import Mathlib

/-!
Verification development for the focus-coaching application: shallow
embeddings of the distraction state machine (src/components/FocusDetection.tsx),
the alarm sequencer (src/utils/beep.ts), the chat fallback logic
(src/components/AIFocusAssistant.tsx) and the rule-based text-activity
classifier (src/components/FocusMode.tsx, class TextActivityClassifier),
together with theorems settling the specification claims about them.
-/

/-! ## Distraction state machine (FocusDetection.tsx, startDetection)

The per-session state of the camera monitor: the two hysteresis counters
(distractedTimeRef, focusedTimeRef), the alarm flag (alarmActive, which in
the running component always mirrors the beep module flag that
isAlarmPlaying() reads), and two tallies counting how many times the
component called startContinuousAlarm() respectively stopContinuousAlarm().
The tallies are ghost observers for the calls the source makes; they are
never read by the transition logic. -/

structure FDState where
  distractedTicks : Nat
  focusedTicks : Nat
  alarmActive : Bool
  startCalls : Nat
  stopCalls : Nat
deriving DecidableEq, Repr

/-- Component mount state: both counters zero, no alarm, no calls yet. -/
def fdInit : FDState := ⟨0, 0, false, 0, 0⟩

/-- One detection tick of FocusDetection.tsx (lines 205-223): the event is
the per-tick boolean isFocused. The not-focused branch increments
distractedTimeRef and zeroes focusedTimeRef, and when the counter has
reached 15 while the alarm is not playing it calls startContinuousAlarm and
sets alarmActive. The focused branch zeroes distractedTimeRef and
increments focusedTimeRef, and when the counter has reached 2 while the
alarm is playing it calls stopContinuousAlarm and clears alarmActive. -/
def fdStep : FDState → Bool → FDState
  | s, false =>
    if 15 ≤ s.distractedTicks + 1 ∧ s.alarmActive = false then
      { distractedTicks := s.distractedTicks + 1, focusedTicks := 0, alarmActive := true,
        startCalls := s.startCalls + 1, stopCalls := s.stopCalls }
    else
      { distractedTicks := s.distractedTicks + 1, focusedTicks := 0, alarmActive := s.alarmActive,
        startCalls := s.startCalls, stopCalls := s.stopCalls }
  | s, true =>
    if 2 ≤ s.focusedTicks + 1 ∧ s.alarmActive = true then
      { distractedTicks := 0, focusedTicks := s.focusedTicks + 1, alarmActive := false,
        startCalls := s.startCalls, stopCalls := s.stopCalls + 1 }
    else
      { distractedTicks := 0, focusedTicks := s.focusedTicks + 1, alarmActive := s.alarmActive,
        startCalls := s.startCalls, stopCalls := s.stopCalls }

/-- Run the detection loop over a whole sequence of per-tick isFocused
events, from the mount state. -/
def fdRun (l : List Bool) : FDState := l.foldl fdStep fdInit

/-! ### Specification-side predicate for the hysteresis property

The spec sentence: the alarm is active iff the most recent run of at least
15 consecutive distracted events has no subsequent run of at least 2
consecutive focused events after it. An event is distracted when isFocused
is false, so the property reads: the event list splits as
p ++ replicate 15 false ++ b where b never has two consecutive true
entries. -/

/-- No two consecutive focused (true) events occur in the list: the
recovery threshold of 2 consecutive focused ticks is never met. -/
def noDoubleFocus : List Bool → Bool
  | [] => true
  | [_] => true
  | a :: b :: rest => !(a && b) && noDoubleFocus (b :: rest)

/-- The spec-side alarm condition: some run of 15 consecutive distracted
events has occurred, and since the end of that run the recovery threshold
of 2 consecutive focused events has never been met. -/
def specAlarm (l : List Bool) : Prop :=
  ∃ p b, l = p ++ List.replicate 15 false ++ b ∧ noDoubleFocus b = true

/-- Length of the trailing run of events equal to v. -/
def trailCount (v : Bool) (l : List Bool) : Nat :=
  (l.reverse.takeWhile (fun x => x == v)).length

theorem trailCount_append (v e : Bool) (l : List Bool) :
    trailCount v (l ++ [e]) = if e == v then trailCount v l + 1 else 0 := by
  unfold trailCount
  rw [List.reverse_append]
  cases h : e == v <;> simp [List.takeWhile_cons, h]

theorem noDoubleFocus_append (l : List Bool) (v : Bool) :
    noDoubleFocus (l ++ [v]) = (noDoubleFocus l && !(v && l.getLast?.getD false)) := by
  induction l with
  | nil => simp [noDoubleFocus]
  | cons x rest ih =>
    cases rest with
    | nil => simp [noDoubleFocus, Bool.and_comm]
    | cons y rest2 =>
      have h1 : noDoubleFocus ((x :: y :: rest2) ++ [v])
          = (!(x && y) && noDoubleFocus ((y :: rest2) ++ [v])) := rfl
      have h2 : noDoubleFocus (x :: y :: rest2)
          = (!(x && y) && noDoubleFocus (y :: rest2)) := rfl
      rw [h1, ih, h2, List.getLast?_cons_cons, Bool.and_assoc]

theorem trailCount_true_eq_zero_iff (l : List Bool) :
    trailCount true l = 0 ↔ l.getLast?.getD false = false := by
  unfold trailCount
  rw [← List.head?_reverse]
  cases hr : l.reverse with
  | nil => simp
  | cons x xs => cases x <;> simp [List.takeWhile_cons]

theorem takeWhile_beq_replicate_append (v : Bool) (n : Nat) (rest : List Bool) :
    (List.replicate n v ++ rest).takeWhile (fun x => x == v)
      = List.replicate n v ++ rest.takeWhile (fun x => x == v) := by
  induction n with
  | zero => simp
  | succ k ih => simp [List.replicate_succ, List.takeWhile_cons, ih]

theorem le_trailCount_append_replicate (v : Bool) (p : List Bool) (n : Nat) :
    n ≤ trailCount v (p ++ List.replicate n v) := by
  unfold trailCount
  rw [List.reverse_append, List.reverse_replicate, takeWhile_beq_replicate_append]
  simp

theorem takeWhile_beq_eq_replicate (v : Bool) (l : List Bool) :
    l.takeWhile (fun x => x == v)
      = List.replicate ((l.takeWhile (fun x => x == v)).length) v := by
  induction l with
  | nil => rfl
  | cons x xs ih =>
    by_cases h : x = v
    · subst h
      simp only [List.takeWhile_cons, beq_self_eq_true, if_true]
      rw [List.length_cons, List.replicate_succ, ← ih]
    · have hb : (x == v) = false := by simp [h]
      simp [List.takeWhile_cons, hb]

theorem exists_append_replicate_of_le_trailCount (v : Bool) (l : List Bool)
    (n : Nat) (h : n ≤ trailCount v l) : ∃ p, l = p ++ List.replicate n v := by
  have hsplit : l.reverse.takeWhile (fun x => x == v)
      ++ l.reverse.dropWhile (fun x => x == v) = l.reverse :=
    List.takeWhile_append_dropWhile (fun x => x == v) l.reverse
  have htk := takeWhile_beq_eq_replicate v l.reverse
  have hm : trailCount v l = (l.reverse.takeWhile (fun x => x == v)).length := rfl
  set m := trailCount v l with hmdef
  have hrev : l.reverse = List.replicate m v ++ l.reverse.dropWhile (fun x => x == v) := by
    conv_lhs => rw [← hsplit]
    rw [htk, hm]
  have hl : l = (l.reverse.dropWhile (fun x => x == v)).reverse ++ List.replicate m v := by
    have h2 := congrArg List.reverse hrev
    simp only [List.reverse_reverse, List.reverse_append, List.reverse_replicate] at h2
    exact h2
  refine ⟨(l.reverse.dropWhile (fun x => x == v)).reverse ++ List.replicate (m - n) v, ?_⟩
  conv_lhs => rw [hl]
  rw [List.append_assoc, ← List.replicate_add, Nat.sub_add_cancel h]

theorem append_singleton_inj {α : Type} {x y : List α} {a b : α}
    (h : x ++ [a] = y ++ [b]) : x = y ∧ a = b := by
  have h2 := congrArg List.reverse h
  simp only [List.reverse_append, List.reverse_singleton, List.singleton_append,
    List.cons.injEq] at h2
  exact ⟨List.reverse_injective h2.2, h2.1⟩

theorem not_specAlarm_nil : ¬ specAlarm [] := by
  rintro ⟨p, b, h, -⟩
  have := congrArg List.length h
  simp at this
  omega

theorem fdStep_false_counts (s : FDState) :
    (fdStep s false).distractedTicks = s.distractedTicks + 1 ∧
    (fdStep s false).focusedTicks = 0 := by
  simp only [fdStep]
  split_ifs <;> exact ⟨rfl, rfl⟩

theorem fdStep_true_counts (s : FDState) :
    (fdStep s true).distractedTicks = 0 ∧
    (fdStep s true).focusedTicks = s.focusedTicks + 1 := by
  simp only [fdStep]
  split_ifs <;> exact ⟨rfl, rfl⟩

theorem fdStep_false_alarm (s : FDState) :
    ((fdStep s false).alarmActive = true)
      ↔ (s.alarmActive = true ∨ 15 ≤ s.distractedTicks + 1) := by
  simp only [fdStep]
  split_ifs with h
  · simp [h.1]
  · constructor
    · exact fun ha => Or.inl ha
    · rintro (ha | hge)
      · exact ha
      · cases hA : s.alarmActive
        · exact absurd ⟨hge, hA⟩ h
        · rfl

theorem fdStep_true_alarm (s : FDState) :
    ((fdStep s true).alarmActive = true)
      ↔ (s.alarmActive = true ∧ s.focusedTicks = 0) := by
  simp only [fdStep]
  split_ifs with h
  · constructor
    · intro hfalse
      exact absurd hfalse (by simp)
    · rintro ⟨-, hf0⟩
      exact absurd h (by omega)
  · constructor
    · intro ha
      refine ⟨ha, ?_⟩
      by_contra hf
      exact h ⟨by omega, ha⟩
    · exact fun hh => hh.1

theorem specAlarm_append_false (l : List Bool) :
    specAlarm (l ++ [false]) ↔ (specAlarm l ∨ 14 ≤ trailCount false l) := by
  constructor
  · rintro ⟨p, b, hl, hb⟩
    rcases List.eq_nil_or_concat b with rfl | ⟨b', e, rfl⟩
    · right
      have h15 : (List.replicate 15 false : List Bool)
          = List.replicate 14 false ++ [false] := by rfl
      rw [List.append_nil, h15, ← List.append_assoc] at hl
      obtain ⟨h1, -⟩ := append_singleton_inj hl
      rw [h1]
      exact le_trailCount_append_replicate false _ 14
    · left
      rw [List.concat_eq_append] at hl hb
      have hassoc : p ++ List.replicate 15 false ++ (b' ++ [e])
          = (p ++ List.replicate 15 false ++ b') ++ [e] := by
        simp [List.append_assoc]
      rw [hassoc] at hl
      obtain ⟨h1, he⟩ := append_singleton_inj hl
      subst he
      rw [noDoubleFocus_append] at hb
      simp only [Bool.false_and, Bool.not_false, Bool.and_true] at hb
      exact ⟨p, b', h1, hb⟩
  · rintro (⟨p, b, hl, hb⟩ | h14)
    · refine ⟨p, b ++ [false], ?_, ?_⟩
      · rw [hl]
        simp [List.append_assoc]
      · rw [noDoubleFocus_append, hb]
        simp
    · obtain ⟨p, hp⟩ := exists_append_replicate_of_le_trailCount false l 14 h14
      refine ⟨p, [], ?_, rfl⟩
      rw [hp]
      have h15 : (List.replicate 15 false : List Bool)
          = List.replicate 14 false ++ [false] := by rfl
      simp [h15, List.append_assoc]

theorem specAlarm_append_true (l : List Bool) :
    specAlarm (l ++ [true]) ↔ (specAlarm l ∧ trailCount true l = 0) := by
  constructor
  · rintro ⟨p, b, hl, hb⟩
    rcases List.eq_nil_or_concat b with rfl | ⟨b', e, rfl⟩
    · exfalso
      have h15 : (List.replicate 15 false : List Bool)
          = List.replicate 14 false ++ [false] := by rfl
      rw [List.append_nil, h15, ← List.append_assoc] at hl
      obtain ⟨-, habs⟩ := append_singleton_inj hl
      exact Bool.noConfusion habs
    · rw [List.concat_eq_append] at hl hb
      have hassoc : p ++ List.replicate 15 false ++ (b' ++ [e])
          = (p ++ List.replicate 15 false ++ b') ++ [e] := by
        simp [List.append_assoc]
      rw [hassoc] at hl
      obtain ⟨h1, he⟩ := append_singleton_inj hl
      subst he
      rw [noDoubleFocus_append] at hb
      simp only [Bool.true_and, Bool.and_eq_true, Bool.not_eq_true'] at hb
      refine ⟨⟨p, b', h1, hb.1⟩, ?_⟩
      rw [trailCount_true_eq_zero_iff, h1]
      rcases List.eq_nil_or_concat b' with rfl | ⟨b'', c, rfl⟩
      · have h15 : (List.replicate 15 false : List Bool)
            = List.replicate 14 false ++ [false] := by rfl
        rw [List.append_nil, h15, ← List.append_assoc, List.getLast?_concat]
        rfl
      · rw [List.concat_eq_append] at hb ⊢
        have hx : p ++ List.replicate 15 false ++ (b'' ++ [c])
            = (p ++ List.replicate 15 false ++ b'') ++ [c] := by
          simp [List.append_assoc]
        rw [hx, List.getLast?_concat]
        have h2 := hb.2
        rw [List.getLast?_concat] at h2
        exact h2
  · rintro ⟨⟨p, b, hl, hb⟩, htr⟩
    have hend : b.getLast?.getD false = false := by
      rw [trailCount_true_eq_zero_iff, hl] at htr
      rcases List.eq_nil_or_concat b with rfl | ⟨b'', c, rfl⟩
      · rfl
      · rw [List.concat_eq_append] at htr ⊢
        have hx : p ++ List.replicate 15 false ++ (b'' ++ [c])
            = (p ++ List.replicate 15 false ++ b'') ++ [c] := by
          simp [List.append_assoc]
        rw [hx, List.getLast?_concat] at htr
        rw [List.getLast?_concat]
        exact htr
    refine ⟨p, b ++ [true], ?_, ?_⟩
    · rw [hl]
      simp [List.append_assoc]
    · rw [noDoubleFocus_append, hb, hend]
      rfl

/-- The machine-spec correspondence for FocusDetection.tsx: after any event
sequence, distractedTimeRef is the trailing distracted-run length,
focusedTimeRef the trailing focused-run length, and the alarm flag matches
the specification predicate. -/
theorem fd_invariant (l : List Bool) :
    (fdRun l).distractedTicks = trailCount false l ∧
    (fdRun l).focusedTicks = trailCount true l ∧
    ((fdRun l).alarmActive = true ↔ specAlarm l) := by
  induction l using List.reverseRecOn with
  | nil =>
    refine ⟨rfl, rfl, ?_⟩
    exact iff_of_false (by simp [fdRun, fdInit]) not_specAlarm_nil
  | append_singleton l e ih =>
    obtain ⟨hd, hf, ha⟩ := ih
    have hrun : fdRun (l ++ [e]) = fdStep (fdRun l) e := by
      simp [fdRun, List.foldl_append]
    cases e with
    | false =>
      refine ⟨?_, ?_, ?_⟩
      · rw [hrun, (fdStep_false_counts (fdRun l)).1, hd, trailCount_append]
        simp
      · rw [hrun, (fdStep_false_counts (fdRun l)).2, trailCount_append]
        simp
      · rw [hrun, fdStep_false_alarm, specAlarm_append_false, ha, hd]
        exact or_congr_right (by omega)
    | true =>
      refine ⟨?_, ?_, ?_⟩
      · rw [hrun, (fdStep_true_counts (fdRun l)).1, trailCount_append]
        simp
      · rw [hrun, (fdStep_true_counts (fdRun l)).2, hf, trailCount_append]
        simp
      · rw [hrun, fdStep_true_alarm, specAlarm_append_true, ha, hf]

/-- C1: for every sequence of classification events fed to the distraction
state machine after start, the alarm is active iff the most recent run of
15 consecutive distracted events has no subsequent run of 2 consecutive
focused events after it; and the scenario: 14 distracted events leave the
alarm off, the 15th turns it on with exactly one startContinuousAlarm call
(still one after further distracted ticks), one focused event leaves it on,
and the 2nd consecutive focused event turns it off with exactly one
stopContinuousAlarm call. -/
theorem c1_alarm_hysteresis_iff :
    (∀ l : List Bool, ((fdRun l).alarmActive = true ↔ specAlarm l)) ∧
    (fdRun (List.replicate 14 false)).alarmActive = false ∧
    (fdRun (List.replicate 15 false)).alarmActive = true ∧
    (fdRun (List.replicate 15 false)).startCalls = 1 ∧
    (fdRun (List.replicate 25 false)).startCalls = 1 ∧
    (fdRun (List.replicate 15 false ++ [true])).alarmActive = true ∧
    (fdRun (List.replicate 15 false ++ [true])).stopCalls = 0 ∧
    (fdRun (List.replicate 15 false ++ [true, true])).alarmActive = false ∧
    (fdRun (List.replicate 15 false ++ [true, true])).stopCalls = 1 ∧
    (fdRun (List.replicate 15 false ++ [true, true])).startCalls = 1 :=
  ⟨fun l => (fd_invariant l).2.2, by decide, by decide, by decide, by decide,
   by decide, by decide, by decide, by decide, by decide⟩

/-! ## The unified distraction state machine over three-valued events

The spec describes one state machine over events Focused, Distracted and
Unknown. The Focused and Distracted transitions are the two branches of
FocusDetection.tsx (embedded above as fdStep); the only Unknown handler in
the source is the else branch of performOCRAndClassify in
ScreenActivityDetector, which leaves its alarm state and counter untouched,
so the Unknown transition is the identity. -/

inductive Label where
  | focused
  | distracted
  | unknown
deriving DecidableEq, Repr

/-- One event of the unified distraction state machine. -/
def dsmStep (s : FDState) : Label → FDState
  | Label.focused => fdStep s true
  | Label.distracted => fdStep s false
  | Label.unknown => s

/-- Run the unified machine from the initial both-zero state. -/
def dsmRun (l : List Label) : FDState := l.foldl dsmStep fdInit

/-! ## Screen activity monitor (ScreenActivityDetector, src/unnamed/part_002)

State of the gaming-alarm logic inside performOCRAndClassify: the
gamingDetectedCount React state, the gaming alarm running flag (toggled by
startGamingAlarm and stopGamingAlarm), and ghost tallies of those calls at
this call site. -/

structure ScreenState where
  gamingDetectedCount : Nat
  gamingAlarmOn : Bool
  startGamingCalls : Nat
  stopGamingCalls : Nat
deriving DecidableEq, Repr

inductive Activity where
  | studying
  | coding
  | gaming
  | unknown
deriving DecidableEq, Repr

/-- One OCR classification tick (part_002 lines 247-264): Gaming increments
the counter and calls startGamingAlarm (so the alarm runs afterwards);
Studying or Coding zero the counter and call stopGamingAlarm; any other
result takes the else branch, which leaves everything unchanged. -/
def screenStep (s : ScreenState) : Activity → ScreenState
  | Activity.gaming =>
    { gamingDetectedCount := s.gamingDetectedCount + 1, gamingAlarmOn := true,
      startGamingCalls := s.startGamingCalls + 1, stopGamingCalls := s.stopGamingCalls }
  | Activity.studying =>
    { gamingDetectedCount := 0, gamingAlarmOn := false,
      startGamingCalls := s.startGamingCalls, stopGamingCalls := s.stopGamingCalls + 1 }
  | Activity.coding =>
    { gamingDetectedCount := 0, gamingAlarmOn := false,
      startGamingCalls := s.startGamingCalls, stopGamingCalls := s.stopGamingCalls + 1 }
  | Activity.unknown => s

/-- C3: processing an Unknown-labeled classification event is the identity
on the whole machine state: the alarm flag is unchanged, no alarm start or
stop call is issued (the ghost call tallies are unchanged), and both
hysteresis counters are frozen at their prior values. The same holds for
the gaming-alarm logic when the classified activity is none of Gaming,
Studying or Coding. -/
theorem c3_unknown_event_noop :
    (∀ s : FDState, dsmStep s Label.unknown = s) ∧
    (∀ s : ScreenState, screenStep s Activity.unknown = s) :=
  ⟨fun _ => rfl, fun _ => rfl⟩

/-- C4: after any sequence of classification events from the initial
both-zero state, at most one of the two hysteresis counters is nonzero,
because a distracted event zeroes the focused counter, a focused event
zeroes the distracted counter, and an unknown event changes neither. -/
theorem c4_at_most_one_counter_nonzero :
    (∀ l : List Label,
      (dsmRun l).distractedTicks = 0 ∨ (dsmRun l).focusedTicks = 0) ∧
    (∀ s : FDState, (dsmStep s Label.distracted).focusedTicks = 0) ∧
    (∀ s : FDState, (dsmStep s Label.focused).distractedTicks = 0) := by
  refine ⟨?_, fun s => (fdStep_false_counts s).2, fun s => (fdStep_true_counts s).1⟩
  intro l
  induction l using List.reverseRecOn with
  | nil => exact Or.inl rfl
  | append_singleton l e ih =>
    have hrun : dsmRun (l ++ [e]) = dsmStep (dsmRun l) e := by
      simp [dsmRun, List.foldl_append]
    rw [hrun]
    cases e with
    | focused => exact Or.inl (fdStep_true_counts (dsmRun l)).1
    | distracted => exact Or.inr (fdStep_false_counts (dsmRun l)).2
    | unknown => exact ih

/-! ## Dual-signal combination (FocusDetection.tsx lines 179-203)

Each entry of the faces list is the number of eyes the eye cascade finds
in the region of one detected face. The code initialises areEyesVisible to
false, and only when at least one face was detected does it inspect the
first face and set the flag when at least one eye is found there; when no
face is detected the flag stays false. -/

def computeAreEyesVisible : List Nat → Bool
  | [] => false
  | eyesInFirstFace :: _ => decide (1 ≤ eyesInFirstFace)

/-- The per-event combined label (line 203):
isFocused = isTmFocused && areEyesVisible. -/
def combinedIsFocused (isTmFocused : Bool) (faces : List Nat) : Bool :=
  isTmFocused && computeAreEyesVisible faces

/-- C2 counterexample: with the primary posture signal Focused and the
secondary signal unavailable (no face detected, so no eye reading is
obtainable), the combined result is Distracted, not Focused. -/
theorem c2_counterexample_no_face_forces_distracted :
    ¬ (combinedIsFocused true [] = true) := by decide

/-- C2 amended: the code never degrades to the primary signal alone. With
no face detected the eye-visibility flag defaults to false, so the
combined label is Distracted whatever the primary signal says; when a face
is detected the combined label is the AND of the primary signal and the
first face showing at least one eye; and a no-face event with a Focused
primary advances the distracted hysteresis counter like any distracted
event. -/
theorem c2_amended_secondary_defaults_to_not_visible :
    (∀ tm : Bool, combinedIsFocused tm [] = false) ∧
    (∀ (tm : Bool) (e : Nat) (rest : List Nat),
      combinedIsFocused tm (e :: rest) = (tm && decide (1 ≤ e))) ∧
    (∀ s : FDState,
      (fdStep s (combinedIsFocused true [])).distractedTicks = s.distractedTicks + 1) :=
  ⟨fun tm => by cases tm <;> rfl, fun _ _ _ => rfl,
   fun s => (fdStep_false_counts s).1⟩

/-! ## Alarm sequencer (src/utils/beep.ts)

Module-level state of beep.ts: the shared audio output context (created
lazily by playBeep and playGamingAlarmBeep and legitimately shared by both
channels), and per channel a running flag plus the pending setTimeout
token. nextToken models the browser allocator handing out fresh timer
tokens; it is not part of either channel. Observable effects of one
synchronous call are returned as a list of acts: audible tones, waits
between tones, timer cancellations and the scheduling of the next cycle.
All functions are total, so no call can throw. -/

structure BeepState where
  audioContextCreated : Bool
  alarmIntervalId : Option Nat
  isAlarmRunning : Bool
  gamingAlarmIntervalId : Option Nat
  isGamingAlarmRunning : Bool
  nextToken : Nat
deriving DecidableEq, Repr

/-- Module load state: no context, nothing running, no pending timers. -/
def beepInit : BeepState := ⟨false, none, false, none, false, 0⟩

inductive Act where
  | beep (durationMs freqHz volumePct : Nat)
  | waitMs (ms : Nat)
  | cancelTimer (token : Nat)
  | scheduleContinuous (delayMs : Nat)
  | scheduleGaming (delayMs : Nat)
deriving DecidableEq, Repr

/-- stopContinuousAlarm (beep.ts lines 90-98): set isAlarmRunning to false;
if a timeout is pending, clear it and null the token. -/
def stopContinuousAlarm (s : BeepState) : BeepState × List Act :=
  match s.alarmIntervalId with
  | some t => ({ s with isAlarmRunning := false, alarmIntervalId := none },
               [Act.cancelTimer t])
  | none => ({ s with isAlarmRunning := false }, [])

/-- stopGamingAlarm (beep.ts lines 184-192): the gaming-channel twin. -/
def stopGamingAlarm (s : BeepState) : BeepState × List Act :=
  match s.gamingAlarmIntervalId with
  | some t => ({ s with isGamingAlarmRunning := false, gamingAlarmIntervalId := none },
               [Act.cancelTimer t])
  | none => ({ s with isGamingAlarmRunning := false }, [])

/-- isAlarmPlaying (beep.ts lines 101-103): pure status query. -/
def isAlarmPlaying (s : BeepState) : Bool := s.isAlarmRunning

/-- isGamingAlarmActive (beep.ts lines 197-199): pure status query. -/
def isGamingAlarmActive (s : BeepState) : Bool := s.isGamingAlarmRunning

/-- One pass of playAlarmCycle (beep.ts lines 66-83): if the flag is down,
return at once; otherwise playBeep (creating the audio context when
needed) and, the flag still being up when the beep completes (the code
re-reads it; in this interleaving-free embedding both reads coincide),
schedule the next cycle after beepDuration + pauseDuration ms, storing the
fresh timeout token in alarmIntervalId. -/
def playAlarmCycleOnce (freq beepDur pauseDur : Nat) (s : BeepState) :
    BeepState × List Act :=
  if s.isAlarmRunning then
    ({ s with audioContextCreated := true,
              alarmIntervalId := some s.nextToken,
              nextToken := s.nextToken + 1 },
     [Act.beep beepDur freq 70, Act.scheduleContinuous (beepDur + pauseDur)])
  else (s, [])

/-- startContinuousAlarm (beep.ts lines 49-87): if already running, log and
return (the idempotence guard); otherwise stop any existing alarm, raise
the running flag and begin the first cycle immediately. -/
def startContinuousAlarm (freq beepDur pauseDur : Nat) (s : BeepState) :
    BeepState × List Act :=
  if s.isAlarmRunning then (s, [])
  else
    let r1 := stopContinuousAlarm s
    let s2 := { r1.1 with isAlarmRunning := true }
    let r2 := playAlarmCycleOnce freq beepDur pauseDur s2
    (r2.1, r1.2 ++ r2.2)

/-- The audible trace of one playGamingCycle (beep.ts lines 154-175),
parameterised by the two reads of isGamingAlarmRunning: at entry and, after
the three tones, before scheduling. Entry flag down: return at once. Flag
up: three 200 ms tones at 1400 Hz, 150 ms apart, then, the flag still
being up, schedule the next cycle in 10000 ms. -/
def playGamingCycleActs (runAtEntry runAtSchedule : Bool) : List Act :=
  if runAtEntry = false then []
  else
    [Act.beep 200 1400 70, Act.waitMs 150, Act.beep 200 1400 70,
     Act.waitMs 150, Act.beep 200 1400 70]
    ++ (if runAtSchedule then [Act.scheduleGaming 10000] else [])

/-- One pass of playGamingCycle as a state transformer (both flag reads
coincide in this interleaving-free embedding): when running, emit the
three-tone burst, store the fresh timeout token in gamingAlarmIntervalId
and schedule the next cycle in 10 s. -/
def playGamingCycleOnce (s : BeepState) : BeepState × List Act :=
  if s.isGamingAlarmRunning then
    ({ s with audioContextCreated := true,
              gamingAlarmIntervalId := some s.nextToken,
              nextToken := s.nextToken + 1 },
     playGamingCycleActs true true)
  else (s, [])

/-- startGamingAlarm (beep.ts lines 142-179): if already running, log and
return; otherwise stop any existing gaming alarm, raise the flag and start
the first cycle immediately. -/
def startGamingAlarm (s : BeepState) : BeepState × List Act :=
  if s.isGamingAlarmRunning then (s, [])
  else
    let r1 := stopGamingAlarm s
    let s2 := { r1.1 with isGamingAlarmRunning := true }
    let r2 := playGamingCycleOnce s2
    (r2.1, r1.2 ++ r2.2)

/-- States the beep module can reach from load: any interleaving of the
exported start and stop calls of both channels and of the scheduled cycle
callbacks firing. -/
inductive BeepReachable : BeepState → Prop where
  | init : BeepReachable beepInit
  | contStart (f d p : Nat) {s : BeepState} :
      BeepReachable s → BeepReachable (startContinuousAlarm f d p s).1
  | contStop {s : BeepState} :
      BeepReachable s → BeepReachable (stopContinuousAlarm s).1
  | gamStart {s : BeepState} :
      BeepReachable s → BeepReachable (startGamingAlarm s).1
  | gamStop {s : BeepState} :
      BeepReachable s → BeepReachable (stopGamingAlarm s).1
  | contFire (f d p : Nat) {s : BeepState} :
      BeepReachable s → BeepReachable (playAlarmCycleOnce f d p s).1
  | gamFire {s : BeepState} :
      BeepReachable s → BeepReachable (playGamingCycleOnce s).1

theorem stopContinuousAlarm_fst (s : BeepState) :
    (stopContinuousAlarm s).1
      = { s with isAlarmRunning := false, alarmIntervalId := none } := by
  obtain ⟨a, id1, r1, id2, r2, tk⟩ := s
  cases id1 <;> rfl

theorem stopGamingAlarm_fst (s : BeepState) :
    (stopGamingAlarm s).1
      = { s with isGamingAlarmRunning := false, gamingAlarmIntervalId := none } := by
  obtain ⟨a, id1, r1, id2, r2, tk⟩ := s
  cases id2 <;> rfl

theorem startContinuousAlarm_of_running (f d p : Nat) (s : BeepState)
    (hr : s.isAlarmRunning = true) :
    startContinuousAlarm f d p s = (s, []) := by
  simp [startContinuousAlarm, hr]

theorem startContinuousAlarm_fst_of_not_running (f d p : Nat) (s : BeepState)
    (hr : s.isAlarmRunning = false) :
    (startContinuousAlarm f d p s).1
      = { s with audioContextCreated := true, isAlarmRunning := true,
                 alarmIntervalId := some s.nextToken, nextToken := s.nextToken + 1 } := by
  obtain ⟨a, id1, r1, id2, r2, tk⟩ := s
  subst hr
  cases id1 <;> rfl

theorem startGamingAlarm_of_running (s : BeepState)
    (hr : s.isGamingAlarmRunning = true) :
    startGamingAlarm s = (s, []) := by
  simp [startGamingAlarm, hr]

theorem startGamingAlarm_fst_of_not_running (s : BeepState)
    (hr : s.isGamingAlarmRunning = false) :
    (startGamingAlarm s).1
      = { s with audioContextCreated := true, isGamingAlarmRunning := true,
                 gamingAlarmIntervalId := some s.nextToken, nextToken := s.nextToken + 1 } := by
  obtain ⟨a, id1, r1, id2, r2, tk⟩ := s
  subst hr
  cases id2 <;> rfl

theorem playAlarmCycleOnce_of_not_running (f d p : Nat) (s : BeepState)
    (hr : s.isAlarmRunning = false) :
    playAlarmCycleOnce f d p s = (s, []) := by
  simp [playAlarmCycleOnce, hr]

theorem playAlarmCycleOnce_fst_of_running (f d p : Nat) (s : BeepState)
    (hr : s.isAlarmRunning = true) :
    (playAlarmCycleOnce f d p s).1
      = { s with audioContextCreated := true,
                 alarmIntervalId := some s.nextToken, nextToken := s.nextToken + 1 } := by
  simp [playAlarmCycleOnce, hr]

theorem playGamingCycleOnce_of_not_running (s : BeepState)
    (hr : s.isGamingAlarmRunning = false) :
    playGamingCycleOnce s = (s, []) := by
  simp [playGamingCycleOnce, hr]

theorem playGamingCycleOnce_fst_of_running (s : BeepState)
    (hr : s.isGamingAlarmRunning = true) :
    (playGamingCycleOnce s).1
      = { s with audioContextCreated := true,
                 gamingAlarmIntervalId := some s.nextToken, nextToken := s.nextToken + 1 } := by
  simp [playGamingCycleOnce, hr]

/-- In every reachable module state, a channel whose flag is down has no
pending timeout token. -/
theorem beep_reachable_inv {s : BeepState} (h : BeepReachable s) :
    (s.isAlarmRunning = false → s.alarmIntervalId = none) ∧
    (s.isGamingAlarmRunning = false → s.gamingAlarmIntervalId = none) := by
  induction h with
  | init => exact ⟨fun _ => rfl, fun _ => rfl⟩
  | contStart f d p hs ih =>
    rename_i s0
    cases hb : s0.isAlarmRunning
    · rw [startContinuousAlarm_fst_of_not_running f d p s0 hb]
      refine ⟨fun habs => ?_, fun hg => ih.2 hg⟩
      simp at habs
    · rw [startContinuousAlarm_of_running f d p s0 hb]
      exact ih
  | contStop hs ih =>
    rename_i s0
    rw [stopContinuousAlarm_fst]
    exact ⟨fun _ => rfl, fun hg => ih.2 hg⟩
  | gamStart hs ih =>
    rename_i s0
    cases hb : s0.isGamingAlarmRunning
    · rw [startGamingAlarm_fst_of_not_running s0 hb]
      refine ⟨fun ha => ih.1 ha, fun habs => ?_⟩
      simp at habs
    · rw [startGamingAlarm_of_running s0 hb]
      exact ih
  | gamStop hs ih =>
    rename_i s0
    rw [stopGamingAlarm_fst]
    exact ⟨fun ha => ih.1 ha, fun _ => rfl⟩
  | contFire f d p hs ih =>
    rename_i s0
    cases hb : s0.isAlarmRunning
    · rw [playAlarmCycleOnce_of_not_running f d p s0 hb]
      exact ih
    · rw [playAlarmCycleOnce_fst_of_running f d p s0 hb]
      refine ⟨fun habs => ?_, fun hg => ih.2 hg⟩
      simp [hb] at habs
  | gamFire hs ih =>
    rename_i s0
    cases hb : s0.isGamingAlarmRunning
    · rw [playGamingCycleOnce_of_not_running s0 hb]
      exact ih
    · rw [playGamingCycleOnce_fst_of_running s0 hb]
      refine ⟨fun ha => ih.1 ha, fun habs => ?_⟩
      simp [hb] at habs

theorem startContinuousAlarm_running_after (f d p : Nat) (s : BeepState) :
    (startContinuousAlarm f d p s).1.isAlarmRunning = true := by
  cases hb : s.isAlarmRunning
  · rw [startContinuousAlarm_fst_of_not_running f d p s hb]
  · rw [startContinuousAlarm_of_running f d p s hb]
    exact hb

theorem startGamingAlarm_running_after (s : BeepState) :
    (startGamingAlarm s).1.isGamingAlarmRunning = true := by
  cases hb : s.isGamingAlarmRunning
  · rw [startGamingAlarm_fst_of_not_running s hb]
  · rw [startGamingAlarm_of_running s hb]
    exact hb

/-- C5: start is idempotent on each channel, guarded by the running flag:
called on a channel whose running flag is up it returns at once, changing
no state and emitting no tone and scheduling nothing (empty act list); and
since a start call always leaves the flag up, a second start call before
any stop is always such a no-op, so two start calls never stack two
concurrent tone cycles. -/
theorem c5_start_idempotent (s : BeepState) (f d p : Nat) :
    (s.isAlarmRunning = true → startContinuousAlarm f d p s = (s, [])) ∧
    (s.isGamingAlarmRunning = true → startGamingAlarm s = (s, [])) ∧
    (startContinuousAlarm f d p (startContinuousAlarm f d p s).1
      = ((startContinuousAlarm f d p s).1, [])) ∧
    (startGamingAlarm (startGamingAlarm s).1 = ((startGamingAlarm s).1, [])) :=
  ⟨fun hr => startContinuousAlarm_of_running f d p s hr,
   fun hr => startGamingAlarm_of_running s hr,
   startContinuousAlarm_of_running f d p _ (startContinuousAlarm_running_after f d p s),
   startGamingAlarm_of_running _ (startGamingAlarm_running_after s)⟩

theorem stopContinuousAlarm_of_clean (s : BeepState)
    (hr : s.isAlarmRunning = false) (hid : s.alarmIntervalId = none) :
    stopContinuousAlarm s = (s, []) := by
  have h1 : stopContinuousAlarm s = ({ s with isAlarmRunning := false }, []) := by
    unfold stopContinuousAlarm
    rw [hid]
  rw [h1, ← hr]

theorem stopGamingAlarm_of_clean (s : BeepState)
    (hr : s.isGamingAlarmRunning = false) (hid : s.gamingAlarmIntervalId = none) :
    stopGamingAlarm s = (s, []) := by
  have h1 : stopGamingAlarm s = ({ s with isGamingAlarmRunning := false }, []) := by
    unfold stopGamingAlarm
    rw [hid]
  rw [h1, ← hr]

/-- C6: stop is idempotent and safe when not running, on both channels:
after a stop call the channel flag is down and no timeout token is pending
(so isRunning reports false), any pending scheduled continuation is
cancelled (the act list is exactly the cancellation of the pending token),
a second stop is a complete no-op, and in any reachable module state a
stop call on a channel that is not running leaves the state unchanged and
emits nothing. Every operation is a total function, so no call can raise
an error. -/
theorem c6_stop_idempotent (s : BeepState) :
    ((stopContinuousAlarm s).1.isAlarmRunning = false) ∧
    ((stopContinuousAlarm s).1.alarmIntervalId = none) ∧
    (isAlarmPlaying (stopContinuousAlarm s).1 = false) ∧
    (∀ t : Nat, s.alarmIntervalId = some t →
      (stopContinuousAlarm s).2 = [Act.cancelTimer t]) ∧
    (stopContinuousAlarm (stopContinuousAlarm s).1 = ((stopContinuousAlarm s).1, [])) ∧
    (BeepReachable s → s.isAlarmRunning = false → stopContinuousAlarm s = (s, [])) ∧
    ((stopGamingAlarm s).1.isGamingAlarmRunning = false) ∧
    ((stopGamingAlarm s).1.gamingAlarmIntervalId = none) ∧
    (isGamingAlarmActive (stopGamingAlarm s).1 = false) ∧
    (∀ t : Nat, s.gamingAlarmIntervalId = some t →
      (stopGamingAlarm s).2 = [Act.cancelTimer t]) ∧
    (stopGamingAlarm (stopGamingAlarm s).1 = ((stopGamingAlarm s).1, [])) ∧
    (BeepReachable s → s.isGamingAlarmRunning = false → stopGamingAlarm s = (s, [])) := by
  refine ⟨?_, ?_, ?_, ?_, ?_, ?_, ?_, ?_, ?_, ?_, ?_, ?_⟩
  · rw [stopContinuousAlarm_fst]
  · rw [stopContinuousAlarm_fst]
  · rw [isAlarmPlaying, stopContinuousAlarm_fst]
  · intro t ht
    unfold stopContinuousAlarm
    rw [ht]
  · exact stopContinuousAlarm_of_clean _
      (by rw [stopContinuousAlarm_fst]) (by rw [stopContinuousAlarm_fst])
  · exact fun hre hr => stopContinuousAlarm_of_clean s hr ((beep_reachable_inv hre).1 hr)
  · rw [stopGamingAlarm_fst]
  · rw [stopGamingAlarm_fst]
  · rw [isGamingAlarmActive, stopGamingAlarm_fst]
  · intro t ht
    unfold stopGamingAlarm
    rw [ht]
  · exact stopGamingAlarm_of_clean _
      (by rw [stopGamingAlarm_fst]) (by rw [stopGamingAlarm_fst])
  · exact fun hre hr => stopGamingAlarm_of_clean s hr ((beep_reachable_inv hre).2 hr)

/-- C7: the two alarm channels never share timer state: every gaming-channel
operation (start, stop, cycle callback) leaves the continuous channel
running flag and pending timeout token unchanged, and every
continuous-channel operation leaves the gaming flag and token unchanged.
The status queries read one flag and mutate nothing. Only the audio output
context field is touched by both channels. -/
theorem c7_channels_share_no_timer_state (s : BeepState) (f d p : Nat) :
    ((startGamingAlarm s).1.isAlarmRunning = s.isAlarmRunning) ∧
    ((startGamingAlarm s).1.alarmIntervalId = s.alarmIntervalId) ∧
    ((stopGamingAlarm s).1.isAlarmRunning = s.isAlarmRunning) ∧
    ((stopGamingAlarm s).1.alarmIntervalId = s.alarmIntervalId) ∧
    ((playGamingCycleOnce s).1.isAlarmRunning = s.isAlarmRunning) ∧
    ((playGamingCycleOnce s).1.alarmIntervalId = s.alarmIntervalId) ∧
    ((startContinuousAlarm f d p s).1.isGamingAlarmRunning = s.isGamingAlarmRunning) ∧
    ((startContinuousAlarm f d p s).1.gamingAlarmIntervalId = s.gamingAlarmIntervalId) ∧
    ((stopContinuousAlarm s).1.isGamingAlarmRunning = s.isGamingAlarmRunning) ∧
    ((stopContinuousAlarm s).1.gamingAlarmIntervalId = s.gamingAlarmIntervalId) ∧
    ((playAlarmCycleOnce f d p s).1.isGamingAlarmRunning = s.isGamingAlarmRunning) ∧
    ((playAlarmCycleOnce f d p s).1.gamingAlarmIntervalId = s.gamingAlarmIntervalId) := by
  obtain ⟨a, id1, r1, id2, r2, tk⟩ := s
  cases r1 <;> cases r2 <;> cases id1 <;> cases id2 <;>
    exact ⟨rfl, rfl, rfl, rfl, rfl, rfl, rfl, rfl, rfl, rfl, rfl, rfl⟩

/-- C8: while the gaming channel is running, one cycle emits exactly three
200 ms tones at 1400 Hz separated by 150 ms gaps and only then schedules
the next cycle 10000 ms later; with the running flag down at entry the
cycle emits nothing, and if the flag has been taken down by a stop before
the scheduling point the three tones are not followed by any scheduling,
so the chain ends. The state-level cycle emits exactly this trace whenever
the channel runs. -/
theorem c8_gaming_cycle_three_beeps_then_pause :
    (playGamingCycleActs true true
      = [Act.beep 200 1400 70, Act.waitMs 150, Act.beep 200 1400 70,
         Act.waitMs 150, Act.beep 200 1400 70, Act.scheduleGaming 10000]) ∧
    (∀ b : Bool, playGamingCycleActs false b = []) ∧
    (playGamingCycleActs true false
      = [Act.beep 200 1400 70, Act.waitMs 150, Act.beep 200 1400 70,
         Act.waitMs 150, Act.beep 200 1400 70]) ∧
    (∀ s : BeepState, s.isGamingAlarmRunning = true →
      (playGamingCycleOnce s).2 = playGamingCycleActs true true) ∧
    (∀ s : BeepState, s.isGamingAlarmRunning = false →
      (playGamingCycleOnce s).2 = []) :=
  ⟨rfl, fun _ => rfl, rfl,
   fun s h => by simp [playGamingCycleOnce, h],
   fun s h => by simp [playGamingCycleOnce, h]⟩

/-! ## Chat bridge (AIFocusAssistant.tsx, generateResponse)

generateResponse sends the prompt to the completion service inside a try
block; any transport or service failure lands in the catch, which returns
getFallbackResponse(userInput), a pure keyword lookup over five fixed
strings. The opaque completion call is modelled by its outcome, an Except
value. All functions are total, so sendMessage cannot throw to its
caller. -/

inductive ServiceError where
  | transport (msg : String)
  | service (msg : String)
deriving DecidableEq, Repr

/-- JavaScript toLowerCase, character by character (only ASCII text matters
for the keyword tests). -/
def strToLower (s : String) : String := String.mk (s.data.map Char.toLower)

/-- pat occurs as a contiguous substring of the character list. -/
def charsContain (pat : List Char) : List Char → Bool
  | [] => pat.isEmpty
  | c :: rest => pat.isPrefixOf (c :: rest) || charsContain pat rest

/-- JavaScript String.includes. -/
def strIncludes (s pat : String) : Bool := charsContain pat.data s.data

/-- The keyword lookup of getFallbackResponse over the already lowercased
message. -/
def fallbackReplyFor (input : String) : String :=
  if strIncludes input "break" then
    "Taking a 5-minute break is a great idea! Walk around, stretch, or grab some water."
  else if strIncludes input "focus" || strIncludes input "concentrate" then
    "Try the Pomodoro Technique: 25 minutes focused work, 5-minute break. It really helps!"
  else if strIncludes input "tired" || strIncludes input "exhausted" then
    "Feeling tired? Take a 15-minute walk or drink water. Dehydration causes fatigue!"
  else if strIncludes input "motivat" then
    "You're doing amazing! Progress, not perfection. Every small step counts!"
  else
    "I'm here to support you! Need study tips, breaks, or motivation? Just ask!"

/-- getFallbackResponse (AIFocusAssistant.tsx lines 175-189): lowercase the
message (const input = message.toLowerCase()), then the keyword lookup,
returning one of five fixed replies. -/
def getFallbackResponse (message : String) : String :=
  fallbackReplyFor (strToLower message)

/-- generateResponse (AIFocusAssistant.tsx lines 156-173), with the awaited
completion call modelled by its outcome: on success the reply text is
returned; on any failure the catch returns the fallback reply. -/
def generateResponse (serviceResult : Except ServiceError String)
    (userInput : String) : String :=
  match serviceResult with
  | Except.ok reply => reply
  | Except.error _ => getFallbackResponse userInput

/-- C9: for every user message, when the completion service call fails the
chat bridge returns the locally computed fallback reply, which is always
one of five fixed strings, and the failure is never propagated: the
embedding is a total function returning a plain string on every error
value. -/
theorem c9_service_failure_returns_fallback (e : ServiceError) (input : String) :
    generateResponse (Except.error e) input = getFallbackResponse input ∧
    getFallbackResponse input ∈
      ["Taking a 5-minute break is a great idea! Walk around, stretch, or grab some water.",
       "Try the Pomodoro Technique: 25 minutes focused work, 5-minute break. It really helps!",
       "Feeling tired? Take a 15-minute walk or drink water. Dehydration causes fatigue!",
       "You're doing amazing! Progress, not perfection. Every small step counts!",
       "I'm here to support you! Need study tips, breaks, or motivation? Just ask!"] := by
  refine ⟨rfl, ?_⟩
  unfold getFallbackResponse fallbackReplyFor
  split_ifs <;> simp

/-! ## Rule-based fallback text classifier
(FocusMode.tsx, TextActivityClassifier.fallbackPredict, lines 152-179)

predict dispatches to fallbackPredict whenever the TensorFlow model is not
loaded. The JavaScript regular expressions are alternations of literal
words tested case-insensitively against the already lowercased text, so
each test is: some keyword of the group occurs as a substring. Scores are
small integers; the JavaScript float divisions are modelled exactly over
the rationals. -/

def keywordHit (input : String) (kws : List String) : Bool :=
  kws.any (fun k => strIncludes input k)

def studyScore (input : String) : Nat :=
  (if keywordHit input
      ["chapter", "lesson", "study", "homework", "exam", "notes", "ncert", "class"]
   then 3 else 0)
  + (if keywordHit input
      ["mathematics", "science", "biology", "chemistry", "physics"]
     then 2 else 0)

def codingScore (input : String) : Nat :=
  (if keywordHit input
      ["function", "def", "class", "import", "print", "code", "python", "javascript"]
   then 3 else 0)
  + (if keywordHit input
      ["loop", "variable", "array", "if", "else", "return"]
     then 2 else 0)

def gamingScore (input : String) : Nat :=
  (if keywordHit input
      ["level", "score", "game", "play", "player", "win", "lose"]
   then 3 else 0)
  + (if keywordHit input
      ["attack", "health", "inventory", "mission"]
     then 2 else 0)

structure Prediction where
  activityClass : String
  confidence : ℚ
  probabilities : List ℚ
deriving DecidableEq, Repr

/-- The score-to-prediction computation of fallbackPredict: total is the
score sum, or 1 when the sum is 0 (the JavaScript expression total ||
1); each probability is score/total; the reported class is
CLASSES[maxIndex] where maxIndex is the first index attaining the maximum
probability (Array.indexOf of Math.max), and the confidence is that
maximum entry. The getD defaults are never reached: the index is always
0, 1 or 2. -/
def fallbackFromScores (s c g : Nat) : Prediction :=
  let total : ℚ := if s + c + g = 0 then 1 else ((s + c + g : Nat) : ℚ)
  let p0 : ℚ := (s : ℚ) / total
  let p1 : ℚ := (c : ℚ) / total
  let p2 : ℚ := (g : ℚ) / total
  let m : ℚ := max p0 (max p1 p2)
  let idx : Nat := if p0 = m then 0 else if p1 = m then 1 else 2
  { activityClass := ["Studying", "Coding", "Gaming"].getD idx "Studying",
    confidence := [p0, p1, p2].getD idx 0,
    probabilities := [p0, p1, p2] }

/-- fallbackPredict: lowercase the text, score the three keyword groups,
convert to a prediction. -/
def fallbackPredict (text : String) : Prediction :=
  fallbackFromScores (studyScore (strToLower text)) (codingScore (strToLower text))
    (gamingScore (strToLower text))

theorem fallbackFromScores_props (s c g : Nat) :
    ((fallbackFromScores s c g).probabilities.length = 3) ∧
    (∀ q ∈ (fallbackFromScores s c g).probabilities, 0 ≤ q) ∧
    (s + c + g ≠ 0 → (fallbackFromScores s c g).probabilities.sum = 1) ∧
    (s + c + g = 0 → fallbackFromScores s c g
      = { activityClass := "Studying", confidence := 0, probabilities := [0, 0, 0] }) := by
  refine ⟨by simp [fallbackFromScores], ?_, ?_, ?_⟩
  · intro q hq
    have htot0 : (0:ℚ) ≤ (if s + c + g = 0 then (1:ℚ) else ((s + c + g : Nat) : ℚ)) := by
      split_ifs
      · norm_num
      · exact Nat.cast_nonneg _
    simp only [fallbackFromScores, List.mem_cons, List.mem_singleton,
      List.not_mem_nil, or_false] at hq
    rcases hq with rfl | rfl | rfl <;> exact div_nonneg (Nat.cast_nonneg _) htot0
  · intro h
    have htot : ((s + c + g : Nat) : ℚ) ≠ 0 := Nat.cast_ne_zero.mpr h
    simp only [fallbackFromScores, if_neg h, List.sum_cons, List.sum_nil, add_zero]
    rw [div_add_div_same, div_add_div_same]
    rw [show ((s:ℚ) + ((c:ℚ) + (g:ℚ))) = ((s + c + g : Nat) : ℚ) by push_cast; ring]
    exact div_self htot
  · intro h
    have hs : s = 0 := by omega
    have hc : c = 0 := by omega
    have hg : g = 0 := by omega
    subst hs; subst hc; subst hg
    unfold fallbackFromScores
    norm_num [List.getD]

/-- C10 counterexample: the empty screen text matches no study, coding or
gaming keyword, and the probabilities the fallback classifier returns for
it are all zero: they sum to 0, not 1. -/
theorem c10_counterexample_no_keyword_sum_zero :
    (fallbackPredict "").probabilities = [0, 0, 0] ∧
    (fallbackPredict "").probabilities.sum = 0 ∧
    ¬ ((fallbackPredict "").probabilities.sum = 1) := by
  have hsum : studyScore (strToLower "") + codingScore (strToLower "")
      + gamingScore (strToLower "") = 0 := by decide
  have h := (fallbackFromScores_props (studyScore (strToLower ""))
    (codingScore (strToLower "")) (gamingScore (strToLower ""))).2.2.2 hsum
  have hpred : fallbackPredict ""
      = { activityClass := "Studying", confidence := 0, probabilities := [0, 0, 0] } := h
  rw [hpred]
  norm_num

/-- C10 amended: the fallback classifier returns exactly three nonnegative
probabilities; they sum to 1 whenever at least one keyword group matches,
but for a text matching no study, coding or gaming keyword all three are
zero (summing to 0, not 1) and the result is class Studying with
confidence 0 — never Gaming. -/
theorem c10_fallback_classifier_properties (t : String) :
    ((fallbackPredict t).probabilities.length = 3) ∧
    (∀ q ∈ (fallbackPredict t).probabilities, 0 ≤ q) ∧
    (studyScore (strToLower t) + codingScore (strToLower t) + gamingScore (strToLower t) ≠ 0 →
      (fallbackPredict t).probabilities.sum = 1) ∧
    (studyScore (strToLower t) + codingScore (strToLower t) + gamingScore (strToLower t) = 0 →
      fallbackPredict t
        = { activityClass := "Studying", confidence := 0, probabilities := [0, 0, 0] }) :=
  fallbackFromScores_props (studyScore (strToLower t)) (codingScore (strToLower t))
    (gamingScore (strToLower t))
